import Mathlib

/-!
Verification of the analytics core of the Smart Habit Tracker
(`app2.py`): the composite scoring function, the weekly-window
analyzer, and the suggestion/alert rule tables.

Numeric values are modelled as exact rationals (`ℚ`).  A habit record
carries the six fixed metrics as `Option ℚ`: `none` models a field
absent from the row, mirroring `row.get(name, 0)` in the source, which
defaults missing fields to `0`.
-/

namespace HabitTracker

/-- One daily entry.  `date` is a day ordinal (calendar dates are totally
ordered; only their order and equality matter to the core).  The six
fixed metrics are optional, `none` standing for a field absent from the
row.  Custom habit fields are ignored by the core and not modelled. -/
structure HabitRecord where
  date : Nat
  sleep : Option ℚ
  healthy_food : Option ℚ
  junk_food : Option ℚ
  exercise : Option ℚ
  water : Option ℚ
  reading : Option ℚ
  deriving DecidableEq, Repr

/-- The scoring function `composite_score(row)` of `app2.py`: each metric is read with
default `0` (`row.get(name, 0)`), normalized by `min(value/cap, 1.0)`
(junk food inverted), and combined with the fixed weights. -/
def composite_score (row : HabitRecord) : ℚ :=
  let s := min (row.sleep.getD 0 / 9) 1
  let hf := min (row.healthy_food.getD 0 / 5) 1
  let jf := 1 - min (row.junk_food.getD 0 / 5) 1
  let ex := min (row.exercise.getD 0 / 60) 1
  let w := min (row.water.getD 0 / 8) 1
  let r := min (row.reading.getD 0 / 60) 1
  0.18*s + 0.18*hf + 0.12*jf + 0.2*ex + 0.16*w + 0.16*r

/-- Tail of `Series.idxmax`: scan the remaining scores keeping the index
and value of the current best; a later element replaces the best only
when strictly greater, so the first maximum wins. -/
def idxmaxGo : List ℚ → Nat → Nat × ℚ → Nat × ℚ
  | [], _, best => best
  | x :: xs, i, (bi, bv) => if bv < x then idxmaxGo xs (i+1) (i, x) else idxmaxGo xs (i+1) (bi, bv)

/-- In the source, `df["score"].idxmax()`: positional index of the first occurrence of
the maximum (0 for the empty list, never used by the analyzer). -/
def idxmax : List ℚ → Nat
  | [] => 0
  | x :: xs => (idxmaxGo xs 1 (0, x)).1

/-- Mean of one fixed-metric column, with pandas `skipna` semantics:
absent (`NaN`) cells are dropped; an all-absent column has no mean. -/
def mean_of (f : HabitRecord → Option ℚ) (l : List HabitRecord) : Option ℚ :=
  let vals := l.filterMap f
  if vals.isEmpty then none else some (vals.sum / (vals.length : ℚ))

/-- Ascending order on `(date, score)` pairs by date, as used by
`sort_values("date")`. -/
def dateLe (a b : Nat × ℚ) : Prop := a.1 ≤ b.1

instance : DecidableRel dateLe := fun a b => Nat.decLe a.1 b.1

instance : IsTotal (Nat × ℚ) dateLe := ⟨fun a b => Nat.le_total a.1 b.1⟩

instance : IsTrans (Nat × ℚ) dateLe := ⟨fun _ _ _ h h' => Nat.le_trans h h'⟩

/-- The summary returned by `analyze_week`: best day, per-metric
averages, and the date-sorted `(date, score)` series. -/
structure WeekSummary where
  best_day : Nat
  avg_sleep : Option ℚ
  avg_healthy_food : Option ℚ
  avg_junk_food : Option ℚ
  avg_exercise : Option ℚ
  avg_water : Option ℚ
  avg_reading : Option ℚ
  scores : List (Nat × ℚ)
  deriving DecidableEq, Repr

/-- The analyzer `analyze_week(df_week)` of `app2.py`: `None` on an empty frame,
otherwise the date of the first best-scoring row, the column means, and
the `(date, score)` pairs sorted ascending by date. -/
def analyze_week (records : List HabitRecord) : Option WeekSummary :=
  match records with
  | [] => none
  | r :: rs =>
    let l := r :: rs
    let scoreList := l.map composite_score
    let best_idx := idxmax scoreList
    some {
      best_day := (l.getD best_idx r).date
      avg_sleep := mean_of HabitRecord.sleep l
      avg_healthy_food := mean_of HabitRecord.healthy_food l
      avg_junk_food := mean_of HabitRecord.junk_food l
      avg_exercise := mean_of HabitRecord.exercise l
      avg_water := mean_of HabitRecord.water l
      avg_reading := mean_of HabitRecord.reading l
      scores := List.insertionSort dateLe (l.map (fun x => (x.date, composite_score x)))
    }

/-- The averages mapping handed to the advisory rules, all six fixed
metrics present. -/
structure Averages where
  sleep : ℚ
  healthy_food : ℚ
  junk_food : ℚ
  exercise : ℚ
  water : ℚ
  reading : ℚ
  deriving DecidableEq, Repr

def sleepTip : String := "Try to increase sleep (aim for 7-9 hours). Consider a consistent bedtime."
def waterTip : String := "Drink more water — target ~8 glasses daily. Set small reminders."
def exerciseTip : String := "Add more movement — even 20–30 min of brisk walk helps."
def healthyFoodTip : String := "Increase healthy food portions (fruits/veggies)."
def junkFoodTip : String := "Reduce junk food frequency; swap one snack for fruit."
def readingTip : String := "Try a short daily reading habit — 10–20 minutes."
def greatWeekTip : String := "Great week! Keep up the balanced habits."

/-- The rule table `suggestions_from_averages(avg)` of `app2.py`: the six threshold
rules appended in source order, with a positive-reinforcement fallback
when no rule fires. -/
def suggestions_from_averages (avg : Averages) : List String :=
  let tips : List String := []
  let tips := if avg.sleep < 6 then tips ++ [sleepTip] else tips
  let tips := if avg.water < 6 then tips ++ [waterTip] else tips
  let tips := if avg.exercise < 20 then tips ++ [exerciseTip] else tips
  let tips := if avg.healthy_food < 3 then tips ++ [healthyFoodTip] else tips
  let tips := if avg.junk_food > 1 then tips ++ [junkFoodTip] else tips
  let tips := if avg.reading < 15 then tips ++ [readingTip] else tips
  if tips.isEmpty then tips ++ [greatWeekTip] else tips

def waterAlert : String := "Low average water intake — consider setting water reminders."
def sleepAlert : String := "Low average sleep — consistent schedule may help."
def exerciseAlert : String := "Low average exercise minutes."

/-- The inline alert block of `app2.py` (module top level, lines
226-235): three threshold rules appended in source order, no fallback. -/
def alerts_from_averages (avg : Averages) : List String :=
  let alerts : List String := []
  let alerts := if avg.water < 5 then alerts ++ [waterAlert] else alerts
  let alerts := if avg.sleep < 6 then alerts ++ [sleepAlert] else alerts
  let alerts := if avg.exercise < 15 then alerts ++ [exerciseAlert] else alerts
  alerts

/-! ### Helper lemmas about capped normalization -/

theorem min_div_cap_eq_one {v c : ℚ} (hc : 0 < c) (h : c ≤ v) : min (v / c) 1 = 1 :=
  min_eq_right ((one_le_div hc).mpr h)

theorem min_div_cap_lt {a b c : ℚ} (hc : 0 < c) (hab : a < b) (hbc : b ≤ c) :
    min (a / c) 1 < min (b / c) 1 := by
  have hb1 : b / c ≤ 1 := (div_le_one hc).mpr hbc
  have hab' : a / c < b / c := by gcongr
  rw [min_eq_left hb1, min_eq_left (le_of_lt (lt_of_lt_of_le hab' hb1))]
  exact hab'

/-- C1: `composite_score` is the fixed weighted formula over the six
capped-normalized metrics, a missing field being read as 0 (the `getD 0`
in the formula), and any field at or above its cap contributes exactly
its full weight (exactly zero for `junk_food`). -/
theorem composite_score_formula (d : Nat) (os ohf ojf oex ow orr : Option ℚ) :
    composite_score ⟨d, os, ohf, ojf, oex, ow, orr⟩ =
      0.18 * min (os.getD 0 / 9) 1 + 0.18 * min (ohf.getD 0 / 5) 1 +
        0.12 * (1 - min (ojf.getD 0 / 5) 1) + 0.2 * min (oex.getD 0 / 60) 1 +
        0.16 * min (ow.getD 0 / 8) 1 + 0.16 * min (orr.getD 0 / 60) 1
    ∧ (9 ≤ os.getD 0 → composite_score ⟨d, os, ohf, ojf, oex, ow, orr⟩ =
        0.18 + composite_score ⟨d, some 0, ohf, ojf, oex, ow, orr⟩)
    ∧ (5 ≤ ohf.getD 0 → composite_score ⟨d, os, ohf, ojf, oex, ow, orr⟩ =
        0.18 + composite_score ⟨d, os, some 0, ojf, oex, ow, orr⟩)
    ∧ (60 ≤ oex.getD 0 → composite_score ⟨d, os, ohf, ojf, oex, ow, orr⟩ =
        0.2 + composite_score ⟨d, os, ohf, ojf, some 0, ow, orr⟩)
    ∧ (8 ≤ ow.getD 0 → composite_score ⟨d, os, ohf, ojf, oex, ow, orr⟩ =
        0.16 + composite_score ⟨d, os, ohf, ojf, oex, some 0, orr⟩)
    ∧ (60 ≤ orr.getD 0 → composite_score ⟨d, os, ohf, ojf, oex, ow, orr⟩ =
        0.16 + composite_score ⟨d, os, ohf, ojf, oex, ow, some 0⟩)
    ∧ (5 ≤ ojf.getD 0 → composite_score ⟨d, os, ohf, ojf, oex, ow, orr⟩ =
        composite_score ⟨d, os, ohf, some 0, oex, ow, orr⟩ - 0.12) := by
  refine ⟨rfl, ?_, ?_, ?_, ?_, ?_, ?_⟩ <;> intro h
  · simp only [composite_score, Option.getD_some,
      min_div_cap_eq_one (show (0:ℚ) < 9 by norm_num) h]
    norm_num [min_def]
    ring
  · simp only [composite_score, Option.getD_some,
      min_div_cap_eq_one (show (0:ℚ) < 5 by norm_num) h]
    norm_num [min_def]
    ring
  · simp only [composite_score, Option.getD_some,
      min_div_cap_eq_one (show (0:ℚ) < 60 by norm_num) h]
    norm_num [min_def]
    ring
  · simp only [composite_score, Option.getD_some,
      min_div_cap_eq_one (show (0:ℚ) < 8 by norm_num) h]
    norm_num [min_def]
    ring
  · simp only [composite_score, Option.getD_some,
      min_div_cap_eq_one (show (0:ℚ) < 60 by norm_num) h]
    norm_num [min_def]
    ring
  · simp only [composite_score, Option.getD_some,
      min_div_cap_eq_one (show (0:ℚ) < 5 by norm_num) h]
    norm_num [min_def]
    ring

/-- Witness for C1 at concrete saturated inputs. -/
theorem composite_score_formula_witness :
    composite_score ⟨0, some 10, some 6, some 7, some 100, some 9, some 61⟩ =
        0.18 + composite_score ⟨0, some 0, some 6, some 7, some 100, some 9, some 61⟩
    ∧ composite_score ⟨0, some 10, some 6, some 7, some 100, some 9, some 61⟩ =
        0.18 + composite_score ⟨0, some 10, some 0, some 7, some 100, some 9, some 61⟩
    ∧ composite_score ⟨0, some 10, some 6, some 7, some 100, some 9, some 61⟩ =
        0.2 + composite_score ⟨0, some 10, some 6, some 7, some 0, some 9, some 61⟩
    ∧ composite_score ⟨0, some 10, some 6, some 7, some 100, some 9, some 61⟩ =
        0.16 + composite_score ⟨0, some 10, some 6, some 7, some 100, some 0, some 61⟩
    ∧ composite_score ⟨0, some 10, some 6, some 7, some 100, some 9, some 61⟩ =
        0.16 + composite_score ⟨0, some 10, some 6, some 7, some 100, some 9, some 0⟩
    ∧ composite_score ⟨0, some 10, some 6, some 7, some 100, some 9, some 61⟩ =
        composite_score ⟨0, some 10, some 6, some 0, some 100, some 9, some 61⟩ - 0.12 := by
  have h := composite_score_formula 0 (some 10) (some 6) (some 7) (some 100) (some 9) (some 61)
  exact ⟨h.2.1 (by norm_num), h.2.2.1 (by norm_num), h.2.2.2.1 (by norm_num),
    h.2.2.2.2.1 (by norm_num), h.2.2.2.2.2.1 (by norm_num), h.2.2.2.2.2.2 (by norm_num)⟩

/-- C2: with all six fixed fields non-negative, the composite score lies
in the closed interval `[0, 1]`. -/
theorem composite_score_bounds (row : HabitRecord)
    (hs : 0 ≤ row.sleep.getD 0) (hhf : 0 ≤ row.healthy_food.getD 0)
    (hjf : 0 ≤ row.junk_food.getD 0) (hex : 0 ≤ row.exercise.getD 0)
    (hw : 0 ≤ row.water.getD 0) (hr : 0 ≤ row.reading.getD 0) :
    0 ≤ composite_score row ∧ composite_score row ≤ 1 := by
  have l1 : 0 ≤ min (row.sleep.getD 0 / 9) 1 := le_min (by positivity) zero_le_one
  have l2 : 0 ≤ min (row.healthy_food.getD 0 / 5) 1 := le_min (by positivity) zero_le_one
  have l3 : 0 ≤ min (row.junk_food.getD 0 / 5) 1 := le_min (by positivity) zero_le_one
  have l4 : 0 ≤ min (row.exercise.getD 0 / 60) 1 := le_min (by positivity) zero_le_one
  have l5 : 0 ≤ min (row.water.getD 0 / 8) 1 := le_min (by positivity) zero_le_one
  have l6 : 0 ≤ min (row.reading.getD 0 / 60) 1 := le_min (by positivity) zero_le_one
  have u1 : min (row.sleep.getD 0 / 9) 1 ≤ 1 := min_le_right _ _
  have u2 : min (row.healthy_food.getD 0 / 5) 1 ≤ 1 := min_le_right _ _
  have u3 : min (row.junk_food.getD 0 / 5) 1 ≤ 1 := min_le_right _ _
  have u4 : min (row.exercise.getD 0 / 60) 1 ≤ 1 := min_le_right _ _
  have u5 : min (row.water.getD 0 / 8) 1 ≤ 1 := min_le_right _ _
  have u6 : min (row.reading.getD 0 / 60) 1 ≤ 1 := min_le_right _ _
  constructor <;> · simp only [composite_score]; linarith

/-- Witness for C2 at a concrete record. -/
theorem composite_score_bounds_witness :
    0 ≤ composite_score ⟨1, some 7, some 3, some 1, some 30, some 6, some 20⟩ ∧
      composite_score ⟨1, some 7, some 3, some 1, some 30, some 6, some 20⟩ ≤ 1 :=
  composite_score_bounds ⟨1, some 7, some 3, some 1, some 30, some 6, some 20⟩
    (by norm_num) (by norm_num) (by norm_num) (by norm_num) (by norm_num) (by norm_num)

/-- C3: increasing one of the five higher-is-better metrics from `a` to
`b` while the other five fields stay fixed strictly increases the score
while `b` is within the cap, and leaves it unchanged once `a` is already
at or above the cap; `junk_food` behaves dually (strict decrease below
its cap, unchanged at or above it). -/
theorem composite_score_monotone (d : Nat) (os ohf ojf oex ow orr : Option ℚ)
    (a b : ℚ) (ha : 0 ≤ a) (hab : a < b) :
    (b ≤ 9 → composite_score ⟨d, some a, ohf, ojf, oex, ow, orr⟩ <
        composite_score ⟨d, some b, ohf, ojf, oex, ow, orr⟩)
    ∧ (9 ≤ a → composite_score ⟨d, some a, ohf, ojf, oex, ow, orr⟩ =
        composite_score ⟨d, some b, ohf, ojf, oex, ow, orr⟩)
    ∧ (b ≤ 5 → composite_score ⟨d, os, some a, ojf, oex, ow, orr⟩ <
        composite_score ⟨d, os, some b, ojf, oex, ow, orr⟩)
    ∧ (5 ≤ a → composite_score ⟨d, os, some a, ojf, oex, ow, orr⟩ =
        composite_score ⟨d, os, some b, ojf, oex, ow, orr⟩)
    ∧ (b ≤ 60 → composite_score ⟨d, os, ohf, ojf, some a, ow, orr⟩ <
        composite_score ⟨d, os, ohf, ojf, some b, ow, orr⟩)
    ∧ (60 ≤ a → composite_score ⟨d, os, ohf, ojf, some a, ow, orr⟩ =
        composite_score ⟨d, os, ohf, ojf, some b, ow, orr⟩)
    ∧ (b ≤ 8 → composite_score ⟨d, os, ohf, ojf, oex, some a, orr⟩ <
        composite_score ⟨d, os, ohf, ojf, oex, some b, orr⟩)
    ∧ (8 ≤ a → composite_score ⟨d, os, ohf, ojf, oex, some a, orr⟩ =
        composite_score ⟨d, os, ohf, ojf, oex, some b, orr⟩)
    ∧ (b ≤ 60 → composite_score ⟨d, os, ohf, ojf, oex, ow, some a⟩ <
        composite_score ⟨d, os, ohf, ojf, oex, ow, some b⟩)
    ∧ (60 ≤ a → composite_score ⟨d, os, ohf, ojf, oex, ow, some a⟩ =
        composite_score ⟨d, os, ohf, ojf, oex, ow, some b⟩)
    ∧ (b ≤ 5 → composite_score ⟨d, os, ohf, some b, oex, ow, orr⟩ <
        composite_score ⟨d, os, ohf, some a, oex, ow, orr⟩)
    ∧ (5 ≤ a → composite_score ⟨d, os, ohf, some a, oex, ow, orr⟩ =
        composite_score ⟨d, os, ohf, some b, oex, ow, orr⟩) := by
  refine ⟨?_, ?_, ?_, ?_, ?_, ?_, ?_, ?_, ?_, ?_, ?_, ?_⟩ <;> intro h
  · have := min_div_cap_lt (show (0:ℚ) < 9 by norm_num) hab h
    simp only [composite_score, Option.getD_some]; linarith
  · have h2 : (9:ℚ) ≤ b := le_of_lt (lt_of_le_of_lt h hab)
    rw [show composite_score ⟨d, some a, ohf, ojf, oex, ow, orr⟩ =
      composite_score ⟨d, some b, ohf, ojf, oex, ow, orr⟩ from ?_]
    simp only [composite_score, Option.getD_some,
      min_div_cap_eq_one (show (0:ℚ) < 9 by norm_num) h,
      min_div_cap_eq_one (show (0:ℚ) < 9 by norm_num) h2]
  · have := min_div_cap_lt (show (0:ℚ) < 5 by norm_num) hab h
    simp only [composite_score, Option.getD_some]; linarith
  · have h2 : (5:ℚ) ≤ b := le_of_lt (lt_of_le_of_lt h hab)
    simp only [composite_score, Option.getD_some,
      min_div_cap_eq_one (show (0:ℚ) < 5 by norm_num) h,
      min_div_cap_eq_one (show (0:ℚ) < 5 by norm_num) h2]
  · have := min_div_cap_lt (show (0:ℚ) < 60 by norm_num) hab h
    simp only [composite_score, Option.getD_some]; linarith
  · have h2 : (60:ℚ) ≤ b := le_of_lt (lt_of_le_of_lt h hab)
    simp only [composite_score, Option.getD_some,
      min_div_cap_eq_one (show (0:ℚ) < 60 by norm_num) h,
      min_div_cap_eq_one (show (0:ℚ) < 60 by norm_num) h2]
  · have := min_div_cap_lt (show (0:ℚ) < 8 by norm_num) hab h
    simp only [composite_score, Option.getD_some]; linarith
  · have h2 : (8:ℚ) ≤ b := le_of_lt (lt_of_le_of_lt h hab)
    simp only [composite_score, Option.getD_some,
      min_div_cap_eq_one (show (0:ℚ) < 8 by norm_num) h,
      min_div_cap_eq_one (show (0:ℚ) < 8 by norm_num) h2]
  · have := min_div_cap_lt (show (0:ℚ) < 60 by norm_num) hab h
    simp only [composite_score, Option.getD_some]; linarith
  · have h2 : (60:ℚ) ≤ b := le_of_lt (lt_of_le_of_lt h hab)
    simp only [composite_score, Option.getD_some,
      min_div_cap_eq_one (show (0:ℚ) < 60 by norm_num) h,
      min_div_cap_eq_one (show (0:ℚ) < 60 by norm_num) h2]
  · have := min_div_cap_lt (show (0:ℚ) < 5 by norm_num) hab h
    simp only [composite_score, Option.getD_some]; linarith
  · have h2 : (5:ℚ) ≤ b := le_of_lt (lt_of_le_of_lt h hab)
    simp only [composite_score, Option.getD_some,
      min_div_cap_eq_one (show (0:ℚ) < 5 by norm_num) h,
      min_div_cap_eq_one (show (0:ℚ) < 5 by norm_num) h2]

/-- Witness for C3: a strict increase below the cap and an unchanged
score above it, at concrete inputs. -/
theorem composite_score_monotone_witness :
    (composite_score ⟨0, some 1, some 1, some 1, some 1, some 1, some 1⟩ <
      composite_score ⟨0, some 2, some 1, some 1, some 1, some 1, some 1⟩)
    ∧ (composite_score ⟨0, some 10, some 1, some 1, some 1, some 1, some 1⟩ =
      composite_score ⟨0, some 11, some 1, some 1, some 1, some 1, some 1⟩)
    ∧ (composite_score ⟨0, some 1, some 1, some 2, some 1, some 1, some 1⟩ <
      composite_score ⟨0, some 1, some 1, some 1, some 1, some 1, some 1⟩) :=
  ⟨(composite_score_monotone 0 (some 1) (some 1) (some 1) (some 1) (some 1) (some 1)
      1 2 (by norm_num) (by norm_num)).1 (by norm_num),
   (composite_score_monotone 0 (some 1) (some 1) (some 1) (some 1) (some 1) (some 1)
      10 11 (by norm_num) (by norm_num)).2.1 (by norm_num),
   (composite_score_monotone 0 (some 1) (some 1) (some 1) (some 1) (some 1) (some 1)
      1 2 (by norm_num) (by norm_num)).2.2.2.2.2.2.2.2.2.2.1 (by norm_num)⟩

/-- C10 counterexample: the record with `sleep = -6` and the other five
fields `0` has composite score exactly `0`, yet its `junk_food` (`0`) is
not at or above the cap `5` and its `sleep` is not `0` — so without a
non-negativity restriction, a zero score does not force
`junk_food ≥ 5` with the five higher-is-better metrics all `0`. -/
theorem composite_score_zero_counterexample :
    composite_score ⟨0, some (-6), some 0, some 0, some 0, some 0, some 0⟩ = 0 ∧
      ¬ ((5:ℚ) ≤ 0 ∧ (-6:ℚ) = 0) := by
  constructor
  · norm_num [composite_score]
  · push_neg
    intro h
    norm_num at h

/-- C10 (amended with non-negative fields): an all-zero (or all-missing)
record scores exactly `0.12`, and among records with non-negative fixed
fields the score is `0` exactly when `junk_food` is at or above its cap
`5` while the five higher-is-better metrics are all `0`. -/
theorem composite_score_zero_iff (d : Nat) (os ohf ojf oex ow orr : Option ℚ)
    (hs : 0 ≤ os.getD 0) (hhf : 0 ≤ ohf.getD 0) (hjf : 0 ≤ ojf.getD 0)
    (hex : 0 ≤ oex.getD 0) (hw : 0 ≤ ow.getD 0) (hr : 0 ≤ orr.getD 0) :
    composite_score ⟨d, none, none, none, none, none, none⟩ = 0.12
    ∧ composite_score ⟨d, some 0, some 0, some 0, some 0, some 0, some 0⟩ = 0.12
    ∧ (composite_score ⟨d, os, ohf, ojf, oex, ow, orr⟩ = 0 ↔
        (5 ≤ ojf.getD 0 ∧ os.getD 0 = 0 ∧ ohf.getD 0 = 0 ∧ oex.getD 0 = 0 ∧
          ow.getD 0 = 0 ∧ orr.getD 0 = 0)) := by
  refine ⟨by norm_num [composite_score], by norm_num [composite_score], ?_, ?_⟩
  · intro h0
    have l1 : 0 ≤ min (os.getD 0 / 9) 1 := le_min (by positivity) zero_le_one
    have l2 : 0 ≤ min (ohf.getD 0 / 5) 1 := le_min (by positivity) zero_le_one
    have l3 : min (ojf.getD 0 / 5) 1 ≤ 1 := min_le_right _ _
    have l4 : 0 ≤ min (oex.getD 0 / 60) 1 := le_min (by positivity) zero_le_one
    have l5 : 0 ≤ min (ow.getD 0 / 8) 1 := le_min (by positivity) zero_le_one
    have l6 : 0 ≤ min (orr.getD 0 / 60) 1 := le_min (by positivity) zero_le_one
    simp only [composite_score] at h0
    have e1 : min (os.getD 0 / 9) 1 = 0 := by linarith
    have e2 : min (ohf.getD 0 / 5) 1 = 0 := by linarith
    have e3 : min (ojf.getD 0 / 5) 1 = 1 := by linarith
    have e4 : min (oex.getD 0 / 60) 1 = 0 := by linarith
    have e5 : min (ow.getD 0 / 8) 1 = 0 := by linarith
    have e6 : min (orr.getD 0 / 60) 1 = 0 := by linarith
    have d1 : os.getD 0 = 0 := by
      rcases min_eq_iff.mp e1 with ⟨h', _⟩ | ⟨h', _⟩
      · exact by linarith [(div_eq_zero_iff.mp h').resolve_right (by norm_num)]
      · exact absurd h' one_ne_zero
    have d2 : ohf.getD 0 = 0 := by
      rcases min_eq_iff.mp e2 with ⟨h', _⟩ | ⟨h', _⟩
      · exact by linarith [(div_eq_zero_iff.mp h').resolve_right (by norm_num)]
      · exact absurd h' one_ne_zero
    have d4 : oex.getD 0 = 0 := by
      rcases min_eq_iff.mp e4 with ⟨h', _⟩ | ⟨h', _⟩
      · exact by linarith [(div_eq_zero_iff.mp h').resolve_right (by norm_num)]
      · exact absurd h' one_ne_zero
    have d5 : ow.getD 0 = 0 := by
      rcases min_eq_iff.mp e5 with ⟨h', _⟩ | ⟨h', _⟩
      · exact by linarith [(div_eq_zero_iff.mp h').resolve_right (by norm_num)]
      · exact absurd h' one_ne_zero
    have d6 : orr.getD 0 = 0 := by
      rcases min_eq_iff.mp e6 with ⟨h', _⟩ | ⟨h', _⟩
      · exact by linarith [(div_eq_zero_iff.mp h').resolve_right (by norm_num)]
      · exact absurd h' one_ne_zero
    have d3 : 5 ≤ ojf.getD 0 := by
      rcases min_eq_iff.mp e3 with ⟨h', _⟩ | ⟨_, h'⟩
      · have : ojf.getD 0 = 5 := by
          field_simp at h'
          linarith
        linarith
      · have := (one_le_div (show (0:ℚ) < 5 by norm_num)).mp h'
        linarith
    exact ⟨d3, d1, d2, d4, d5, d6⟩
  · rintro ⟨h3, h1, h2, h4, h5, h6⟩
    simp only [composite_score, h1, h2, h4, h5, h6,
      min_div_cap_eq_one (show (0:ℚ) < 5 by norm_num) h3]
    norm_num [min_def]

/-- Witness for C10 (amended): the all-missing record scores `0.12`, and
a non-negative record with `junk_food` at its cap and the other metrics
zero scores `0`. -/
theorem composite_score_zero_iff_witness :
    composite_score ⟨0, none, none, none, none, none, none⟩ = 0.12 ∧
      composite_score ⟨0, some 0, some 0, some 5, some 0, some 0, some 0⟩ = 0 :=
  ⟨(composite_score_zero_iff 0 none none none none none none
      (by norm_num) (by norm_num) (by norm_num) (by norm_num) (by norm_num) (by norm_num)).1,
   (composite_score_zero_iff 0 (some 0) (some 0) (some 5) (some 0) (some 0) (some 0)
      (by norm_num) (by norm_num) (by norm_num) (by norm_num) (by norm_num) (by norm_num)).2.2.mpr
      (by norm_num)⟩

/-! ### The first-occurrence argmax scan -/

theorem idxmaxGo_spec (xs : List ℚ) : ∀ (i bi : Nat) (bv : ℚ),
    (idxmaxGo xs i (bi, bv) = (bi, bv) ∧ ∀ j (hj : j < xs.length), xs.get ⟨j, hj⟩ ≤ bv)
    ∨ (∃ k, ∃ hk : k < xs.length,
        idxmaxGo xs i (bi, bv) = (i + k, xs.get ⟨k, hk⟩) ∧
        bv < xs.get ⟨k, hk⟩ ∧
        (∀ j (hj : j < xs.length), xs.get ⟨j, hj⟩ ≤ xs.get ⟨k, hk⟩) ∧
        (∀ j (hj : j < k), xs.get ⟨j, lt_trans hj hk⟩ < xs.get ⟨k, hk⟩)) := by
  induction xs with
  | nil =>
    intro i bi bv
    left
    exact ⟨rfl, fun j hj => absurd hj (by simp)⟩
  | cons x xs ih =>
    intro i bi bv
    by_cases hx : bv < x
    · have hgo : idxmaxGo (x :: xs) i (bi, bv) = idxmaxGo xs (i + 1) (i, x) := by
        simp [idxmaxGo, hx]
      rcases ih (i + 1) i x with ⟨heq, hall⟩ | ⟨k, hk, heq, hlt, hall, hbef⟩
      · right
        refine ⟨0, by simp, ?_, hx, ?_, ?_⟩
        · rw [hgo, heq]; simp
        · intro j hj
          match j with
          | 0 => simp
          | j' + 1 => simpa using hall j' (by simpa using hj)
        · intro j hj
          exact absurd hj (Nat.not_lt_zero j)
      · right
        refine ⟨k + 1, by simpa using Nat.succ_lt_succ hk, ?_, ?_, ?_, ?_⟩
        · rw [hgo, heq]
          simp only [List.get_cons_succ]
          congr 1
          omega
        · simpa using lt_trans hx hlt
        · intro j hj
          match j with
          | 0 => simpa using le_of_lt hlt
          | j' + 1 => simpa using hall j' (by simpa using hj)
        · intro j hj
          match j with
          | 0 => simpa using hlt
          | j' + 1 => simpa using hbef j' (by omega)
    · have hgo : idxmaxGo (x :: xs) i (bi, bv) = idxmaxGo xs (i + 1) (bi, bv) := by
        simp [idxmaxGo, hx]
      have hxle : x ≤ bv := le_of_not_lt hx
      rcases ih (i + 1) bi bv with ⟨heq, hall⟩ | ⟨k, hk, heq, hlt, hall, hbef⟩
      · left
        refine ⟨by rw [hgo, heq], ?_⟩
        intro j hj
        match j with
        | 0 => simpa using hxle
        | j' + 1 => simpa using hall j' (by simpa using hj)
      · right
        refine ⟨k + 1, by simpa using Nat.succ_lt_succ hk, ?_, ?_, ?_, ?_⟩
        · rw [hgo, heq]
          simp only [List.get_cons_succ]
          congr 1
          omega
        · simpa using hlt
        · intro j hj
          match j with
          | 0 => simpa using le_of_lt (lt_of_le_of_lt hxle hlt)
          | j' + 1 => simpa using hall j' (by simpa using hj)
        · intro j hj
          match j with
          | 0 => simpa using lt_of_le_of_lt hxle hlt
          | j' + 1 => simpa using hbef j' (by omega)

/-- On a non-empty list `idxmax` is a stable argmax: it is in range, its
element is a maximum, and every earlier element is strictly smaller. -/
theorem idxmax_spec (x : ℚ) (xs : List ℚ) :
    ∃ hk : idxmax (x :: xs) < (x :: xs).length,
      (∀ j (hj : j < (x :: xs).length),
        (x :: xs).get ⟨j, hj⟩ ≤ (x :: xs).get ⟨idxmax (x :: xs), hk⟩) ∧
      (∀ j (hj : j < idxmax (x :: xs)),
        (x :: xs).get ⟨j, lt_trans hj hk⟩ < (x :: xs).get ⟨idxmax (x :: xs), hk⟩) := by
  rcases idxmaxGo_spec xs 1 0 x with ⟨heq, hall⟩ | ⟨k, hk, heq, hlt, hall, hbef⟩
  · have hidx : idxmax (x :: xs) = 0 := by simp [idxmax, heq]
    rw [hidx]
    refine ⟨by simp, ?_, ?_⟩
    · intro j hj
      match j with
      | 0 => simp
      | j' + 1 => simpa using hall j' (by simpa using hj)
    · intro j hj
      exact absurd hj (Nat.not_lt_zero j)
  · have hidx : idxmax (x :: xs) = 1 + k := by simp [idxmax, heq]
    rw [hidx]
    have hk1 : 1 + k < (x :: xs).length := by simp; omega
    refine ⟨hk1, ?_, ?_⟩
    · have hget : (x :: xs).get ⟨1 + k, hk1⟩ = xs.get ⟨k, hk⟩ := by
        have h1k : (1 + k : Nat) = k + 1 := by omega
        simp [h1k]
      intro j hj
      rw [hget]
      match j with
      | 0 => simpa using le_of_lt hlt
      | j' + 1 => simpa using hall j' (by simpa using hj)
    · intro j hj
      have hget : (x :: xs).get ⟨1 + k, hk1⟩ = xs.get ⟨k, hk⟩ := by
        have h1k : (1 + k : Nat) = k + 1 := by omega
        simp [h1k]
      rw [hget]
      match j with
      | 0 => simpa using hlt
      | j' + 1 =>
        have hj' : j' < k := by omega
        simpa using hbef j' hj'

/-- Reading the mapped score list at an index is scoring the record at
that index. -/
theorem get_map_composite (l : List HabitRecord) (j : Nat) (hj : j < l.length) :
    ∀ hj' : j < (l.map composite_score).length,
      (l.map composite_score).get ⟨j, hj'⟩ = composite_score (l.get ⟨j, hj⟩) := by
  intro hj'
  simp [List.get_eq_getElem, List.getElem_map]

/-- A column in which every cell is present filters to the plain column
of values. -/
theorem filterMap_eq_map_of_isSome {α : Type} (f : α → Option ℚ) :
    ∀ l : List α, (∀ r ∈ l, (f r).isSome = true) →
      l.filterMap f = l.map fun r => (f r).getD 0
  | [], _ => rfl
  | r :: rs, h => by
    obtain ⟨v, hv⟩ := Option.isSome_iff_exists.mp (h r (List.mem_cons_self r rs))
    simp only [List.filterMap_cons, List.map_cons, hv, Option.getD_some,
      filterMap_eq_map_of_isSome f rs fun x hx => h x (List.mem_cons_of_mem r hx)]

/-- On a non-empty list whose cells are all present, `mean_of` is the
arithmetic mean: sum of the column divided by the number of records. -/
theorem mean_of_eq (f : HabitRecord → Option ℚ) (l : List HabitRecord) (hne : l ≠ [])
    (h : ∀ r ∈ l, (f r).isSome = true) :
    mean_of f l = some ((l.map fun r => (f r).getD 0).sum / (l.length : ℚ)) := by
  match l with
  | [] => exact absurd rfl hne
  | r :: rs =>
    have hfm := filterMap_eq_map_of_isSome f (r :: rs) h
    obtain ⟨v, hv⟩ := Option.isSome_iff_exists.mp (h r (List.mem_cons_self r rs))
    simp only [mean_of, hfm, List.map_cons, List.isEmpty_cons, List.length_cons,
      if_neg (by simp : ¬((((f r).getD 0 :: rs.map fun x => (f x).getD 0)).isEmpty = true))]
    simp

/-- C4: `analyze_week` returns the no-data signal `none` exactly on the
empty collection; any other input yields a summary. -/
theorem analyze_week_empty :
    analyze_week [] = none ∧ ∀ l : List HabitRecord, analyze_week l = none → l = [] := by
  refine ⟨rfl, ?_⟩
  intro l h
  cases l with
  | nil => rfl
  | cons r rs => simp [analyze_week] at h

/-- Witness for C4: the empty list maps to `none` and is forced by the
theorem to be empty. -/
theorem analyze_week_empty_witness :
    analyze_week ([] : List HabitRecord) = none ∧ ([] : List HabitRecord) = [] :=
  ⟨analyze_week_empty.1, analyze_week_empty.2 [] analyze_week_empty.1⟩

/-- C5: on a non-empty input, `analyze_week` reports as `best_day` the
date of a record of maximal composite score, and every record appearing
earlier in the input strictly misses that maximum (first-occurrence
tie-break). -/
theorem analyze_week_best_day (l : List HabitRecord) (hne : l ≠ []) :
    ∃ s, analyze_week l = some s ∧
      ∃ i, ∃ hi : i < l.length,
        s.best_day = (l.get ⟨i, hi⟩).date ∧
        (∀ j (hj : j < l.length),
          composite_score (l.get ⟨j, hj⟩) ≤ composite_score (l.get ⟨i, hi⟩)) ∧
        (∀ j (hj : j < i),
          composite_score (l.get ⟨j, lt_trans hj hi⟩) < composite_score (l.get ⟨i, hi⟩)) := by
  match l with
  | [] => exact absurd rfl hne
  | r :: rs =>
    obtain ⟨hk, hall, hbef⟩ := idxmax_spec (composite_score r) (rs.map composite_score)
    have e1 : composite_score r :: rs.map composite_score = (r :: rs).map composite_score := rfl
    have hlen : (composite_score r :: rs.map composite_score).length = (r :: rs).length := by
      rw [e1, List.length_map]
    have hi : idxmax ((r :: rs).map composite_score) < (r :: rs).length := hlen ▸ hk
    refine ⟨_, rfl, idxmax ((r :: rs).map composite_score), hi, ?_, ?_, ?_⟩
    · show ((r :: rs).getD (idxmax ((r :: rs).map composite_score)) r).date = _
      rw [List.getD_eq_getElem (r :: rs) r hi]
      simp [List.get_eq_getElem]
    · intro j hj
      have hj' : j < (composite_score r :: rs.map composite_score).length := hlen.symm ▸ hj
      have h1 : ((r :: rs).map composite_score).get ⟨j, hj'⟩ ≤
          ((r :: rs).map composite_score).get ⟨idxmax ((r :: rs).map composite_score), hk⟩ :=
        hall j hj'
      rw [get_map_composite _ j hj, get_map_composite _ _ hi] at h1
      exact h1
    · intro j hj
      have hjl : j < (r :: rs).length := lt_trans hj hi
      have h1 : ((r :: rs).map composite_score).get ⟨j, hlen.symm ▸ hjl⟩ <
          ((r :: rs).map composite_score).get ⟨idxmax ((r :: rs).map composite_score), hk⟩ :=
        hbef j hj
      rw [get_map_composite _ j hjl, get_map_composite _ _ hi] at h1
      exact h1

/-- Witness for C5 at a concrete two-record input with tied scores. -/
theorem analyze_week_best_day_witness :
    ∃ s, analyze_week [(⟨7, none, none, none, none, none, none⟩ : HabitRecord),
        ⟨3, none, none, none, none, none, none⟩] = some s ∧
      ∃ i, ∃ hi : i < ([(⟨7, none, none, none, none, none, none⟩ : HabitRecord),
          ⟨3, none, none, none, none, none, none⟩]).length,
        s.best_day = (([(⟨7, none, none, none, none, none, none⟩ : HabitRecord),
          ⟨3, none, none, none, none, none, none⟩]).get ⟨i, hi⟩).date ∧
        (∀ j (hj : j < ([(⟨7, none, none, none, none, none, none⟩ : HabitRecord),
            ⟨3, none, none, none, none, none, none⟩]).length),
          composite_score (([(⟨7, none, none, none, none, none, none⟩ : HabitRecord),
            ⟨3, none, none, none, none, none, none⟩]).get ⟨j, hj⟩) ≤
          composite_score (([(⟨7, none, none, none, none, none, none⟩ : HabitRecord),
            ⟨3, none, none, none, none, none, none⟩]).get ⟨i, hi⟩)) ∧
        (∀ j (hj : j < i),
          composite_score (([(⟨7, none, none, none, none, none, none⟩ : HabitRecord),
            ⟨3, none, none, none, none, none, none⟩]).get ⟨j, lt_trans hj hi⟩) <
          composite_score (([(⟨7, none, none, none, none, none, none⟩ : HabitRecord),
            ⟨3, none, none, none, none, none, none⟩]).get ⟨i, hi⟩)) :=
  analyze_week_best_day _ (by simp)

/-- C6: on a non-empty input in which every record carries all six fixed
fields, the reported averages are the arithmetic means (sum over number
of records) of each fixed column. -/
theorem analyze_week_averages (l : List HabitRecord) (hne : l ≠ [])
    (hall : ∀ r ∈ l, r.sleep.isSome = true ∧ r.healthy_food.isSome = true ∧
      r.junk_food.isSome = true ∧ r.exercise.isSome = true ∧ r.water.isSome = true ∧
      r.reading.isSome = true) :
    ∃ s, analyze_week l = some s ∧
      s.avg_sleep = some ((l.map fun r => r.sleep.getD 0).sum / (l.length : ℚ)) ∧
      s.avg_healthy_food = some ((l.map fun r => r.healthy_food.getD 0).sum / (l.length : ℚ)) ∧
      s.avg_junk_food = some ((l.map fun r => r.junk_food.getD 0).sum / (l.length : ℚ)) ∧
      s.avg_exercise = some ((l.map fun r => r.exercise.getD 0).sum / (l.length : ℚ)) ∧
      s.avg_water = some ((l.map fun r => r.water.getD 0).sum / (l.length : ℚ)) ∧
      s.avg_reading = some ((l.map fun r => r.reading.getD 0).sum / (l.length : ℚ)) := by
  match l with
  | [] => exact absurd rfl hne
  | r :: rs =>
    refine ⟨_, rfl,
      mean_of_eq _ _ hne fun x hx => ((hall x hx).1),
      mean_of_eq _ _ hne fun x hx => ((hall x hx).2.1),
      mean_of_eq _ _ hne fun x hx => ((hall x hx).2.2.1),
      mean_of_eq _ _ hne fun x hx => ((hall x hx).2.2.2.1),
      mean_of_eq _ _ hne fun x hx => ((hall x hx).2.2.2.2.1),
      mean_of_eq _ _ hne fun x hx => ((hall x hx).2.2.2.2.2)⟩

/-- Witness for C6 at a concrete two-record input. -/
theorem analyze_week_averages_witness :
    ∃ s, analyze_week [(⟨1, some 8, some 4, some 0, some 30, some 8, some 20⟩ : HabitRecord),
        ⟨2, some 4, some 2, some 2, some 10, some 4, some 10⟩] = some s ∧
      s.avg_sleep = some ((([(⟨1, some 8, some 4, some 0, some 30, some 8, some 20⟩ : HabitRecord),
        ⟨2, some 4, some 2, some 2, some 10, some 4, some 10⟩]).map fun r => r.sleep.getD 0).sum /
        ((([(⟨1, some 8, some 4, some 0, some 30, some 8, some 20⟩ : HabitRecord),
        ⟨2, some 4, some 2, some 2, some 10, some 4, some 10⟩]).length : ℚ))) ∧
      s.avg_healthy_food = some ((([(⟨1, some 8, some 4, some 0, some 30, some 8, some 20⟩ : HabitRecord),
        ⟨2, some 4, some 2, some 2, some 10, some 4, some 10⟩]).map fun r => r.healthy_food.getD 0).sum /
        ((([(⟨1, some 8, some 4, some 0, some 30, some 8, some 20⟩ : HabitRecord),
        ⟨2, some 4, some 2, some 2, some 10, some 4, some 10⟩]).length : ℚ))) ∧
      s.avg_junk_food = some ((([(⟨1, some 8, some 4, some 0, some 30, some 8, some 20⟩ : HabitRecord),
        ⟨2, some 4, some 2, some 2, some 10, some 4, some 10⟩]).map fun r => r.junk_food.getD 0).sum /
        ((([(⟨1, some 8, some 4, some 0, some 30, some 8, some 20⟩ : HabitRecord),
        ⟨2, some 4, some 2, some 2, some 10, some 4, some 10⟩]).length : ℚ))) ∧
      s.avg_exercise = some ((([(⟨1, some 8, some 4, some 0, some 30, some 8, some 20⟩ : HabitRecord),
        ⟨2, some 4, some 2, some 2, some 10, some 4, some 10⟩]).map fun r => r.exercise.getD 0).sum /
        ((([(⟨1, some 8, some 4, some 0, some 30, some 8, some 20⟩ : HabitRecord),
        ⟨2, some 4, some 2, some 2, some 10, some 4, some 10⟩]).length : ℚ))) ∧
      s.avg_water = some ((([(⟨1, some 8, some 4, some 0, some 30, some 8, some 20⟩ : HabitRecord),
        ⟨2, some 4, some 2, some 2, some 10, some 4, some 10⟩]).map fun r => r.water.getD 0).sum /
        ((([(⟨1, some 8, some 4, some 0, some 30, some 8, some 20⟩ : HabitRecord),
        ⟨2, some 4, some 2, some 2, some 10, some 4, some 10⟩]).length : ℚ))) ∧
      s.avg_reading = some ((([(⟨1, some 8, some 4, some 0, some 30, some 8, some 20⟩ : HabitRecord),
        ⟨2, some 4, some 2, some 2, some 10, some 4, some 10⟩]).map fun r => r.reading.getD 0).sum /
        ((([(⟨1, some 8, some 4, some 0, some 30, some 8, some 20⟩ : HabitRecord),
        ⟨2, some 4, some 2, some 2, some 10, some 4, some 10⟩]).length : ℚ))) :=
  analyze_week_averages _ (by simp)
    (by
      intro r hr
      simp only [List.mem_cons, List.not_mem_nil, or_false] at hr
      rcases hr with rfl | rfl <;> exact ⟨rfl, rfl, rfl, rfl, rfl, rfl⟩)

/-- C7: on a non-empty input the reported score series is exactly the
`(date, composite_score)` pairs of the input records — one entry per
record, duplicates by date kept — arranged ascending by date. -/
theorem analyze_week_scores (l : List HabitRecord) (hne : l ≠ []) :
    ∃ s, analyze_week l = some s ∧
      s.scores.Perm (l.map fun r => (r.date, composite_score r)) ∧
      s.scores.length = l.length ∧
      List.Sorted dateLe s.scores := by
  match l with
  | [] => exact absurd rfl hne
  | r :: rs =>
    refine ⟨_, rfl, ?_, ?_, ?_⟩
    · exact List.perm_insertionSort dateLe _
    · rw [(List.perm_insertionSort dateLe _).length_eq, List.length_map]
    · exact List.sorted_insertionSort dateLe _

/-- Witness for C7 at a concrete two-record input sharing no date. -/
theorem analyze_week_scores_witness :
    ∃ s, analyze_week [(⟨5, none, none, none, none, none, none⟩ : HabitRecord),
        ⟨2, some 9, some 5, some 0, some 60, some 8, some 60⟩] = some s ∧
      s.scores.Perm (([(⟨5, none, none, none, none, none, none⟩ : HabitRecord),
        ⟨2, some 9, some 5, some 0, some 60, some 8, some 60⟩]).map
          fun r => (r.date, composite_score r)) ∧
      s.scores.length = ([(⟨5, none, none, none, none, none, none⟩ : HabitRecord),
        ⟨2, some 9, some 5, some 0, some 60, some 8, some 60⟩]).length ∧
      List.Sorted dateLe s.scores :=
  analyze_week_scores _ (by simp)

/-- Appending a tip when a rule fires is appending the rule's conditional
singleton. -/
theorem ite_append_singleton (c : Prop) [Decidable c] (t : List String) (x : String) :
    (if c then t ++ [x] else t) = t ++ if c then [x] else [] := by
  split_ifs <;> simp

/-- A list with a fallback element appended when empty is never empty. -/
theorem fallback_ne_nil (t : List String) (g : String) :
    (if t.isEmpty then t ++ [g] else t) ≠ [] := by
  cases t <;> simp

/-- The fallback contributes nothing when some rule already fired. -/
theorem append_fallback_of_ne_nil (t : List String) (g : String) (h : t ≠ []) :
    (t ++ if t.isEmpty then [g] else []) = t := by
  rw [if_neg, List.append_nil]
  simpa using h

/-- The suggestion list always ends up non-empty: either a rule fired,
or the fallback message is appended. -/
theorem suggestions_ne_nil (avg : Averages) : suggestions_from_averages avg ≠ [] := by
  simp only [suggestions_from_averages]
  exact fallback_ne_nil _ _

/-- C8: `suggestions_from_averages` is the six-rule threshold table
evaluated in source order (sleep, water, exercise, healthy food, junk
food, reading), each firing rule appending its tip independently; when
no rule fires the result is exactly the positive-reinforcement message,
so the result is never empty. -/
theorem suggestions_spec (avg : Averages) :
    suggestions_from_averages avg ≠ [] ∧
    ((avg.sleep < 6 ∨ avg.water < 6 ∨ avg.exercise < 20 ∨ avg.healthy_food < 3 ∨
        avg.junk_food > 1 ∨ avg.reading < 15) →
      suggestions_from_averages avg =
        (if avg.sleep < 6 then [sleepTip] else []) ++
        (if avg.water < 6 then [waterTip] else []) ++
        (if avg.exercise < 20 then [exerciseTip] else []) ++
        (if avg.healthy_food < 3 then [healthyFoodTip] else []) ++
        (if avg.junk_food > 1 then [junkFoodTip] else []) ++
        (if avg.reading < 15 then [readingTip] else [])) ∧
    ((¬ avg.sleep < 6 ∧ ¬ avg.water < 6 ∧ ¬ avg.exercise < 20 ∧ ¬ avg.healthy_food < 3 ∧
        ¬ avg.junk_food > 1 ∧ ¬ avg.reading < 15) →
      suggestions_from_averages avg = [greatWeekTip]) := by
  refine ⟨suggestions_ne_nil avg, ?_, ?_⟩
  · intro hfire
    simp only [suggestions_from_averages, ite_append_singleton, List.nil_append]
    apply append_fallback_of_ne_nil
    rcases hfire with h | h | h | h | h | h <;>
      simp [h, List.append_eq_nil]
  · rintro ⟨h1, h2, h3, h4, h5, h6⟩
    simp [suggestions_from_averages, h1, h2, h3, h4, h5, h6]

/-- Witness for C8: the spec's "good" averages fire no rule and yield
exactly the positive message; low-sleep averages yield the table. -/
theorem suggestions_spec_witness :
    suggestions_from_averages ⟨8, 4, 0, 30, 8, 20⟩ ≠ [] ∧
      suggestions_from_averages ⟨8, 4, 0, 30, 8, 20⟩ = [greatWeekTip] ∧
      suggestions_from_averages ⟨5, 4, 0, 30, 8, 20⟩ = [sleepTip] :=
  ⟨(suggestions_spec ⟨8, 4, 0, 30, 8, 20⟩).1,
   (suggestions_spec ⟨8, 4, 0, 30, 8, 20⟩).2.2
     (by norm_num),
   by
    have h := (suggestions_spec ⟨5, 4, 0, 30, 8, 20⟩).2.1 (by norm_num)
    simpa using h⟩

/-- C9: the alert block is the three-rule threshold table evaluated in
source order (water, sleep, exercise), each firing rule appending its
alert; when no rule fires the result is the empty list — unlike
`suggestions_from_averages`, which is never empty. -/
theorem alerts_spec (avg : Averages) :
    alerts_from_averages avg =
      (if avg.water < 5 then [waterAlert] else []) ++
      (if avg.sleep < 6 then [sleepAlert] else []) ++
      (if avg.exercise < 15 then [exerciseAlert] else []) ∧
    ((¬ avg.water < 5 ∧ ¬ avg.sleep < 6 ∧ ¬ avg.exercise < 15) →
      alerts_from_averages avg = []) ∧
    suggestions_from_averages avg ≠ [] := by
  refine ⟨?_, ?_, suggestions_ne_nil avg⟩
  · by_cases h1 : avg.water < 5 <;> by_cases h2 : avg.sleep < 6 <;>
      by_cases h3 : avg.exercise < 15 <;> simp [alerts_from_averages, h1, h2, h3]
  · rintro ⟨h1, h2, h3⟩
    simp [alerts_from_averages, h1, h2, h3]

/-- Witness for C9 at the spec's two example inputs: good averages give
no alert, poor averages give all three in order. -/
theorem alerts_spec_witness :
    alerts_from_averages ⟨8, 4, 0, 30, 8, 20⟩ = [] ∧
      alerts_from_averages ⟨5, 4, 0, 10, 4, 20⟩ = [waterAlert, sleepAlert, exerciseAlert] :=
  ⟨(alerts_spec ⟨8, 4, 0, 30, 8, 20⟩).2.1 (by norm_num),
   by
    have h := (alerts_spec ⟨5, 4, 0, 10, 4, 20⟩).1
    simpa using h⟩

end HabitTracker
